import Mathlib

/-!
xout (X11 input forwarder): shallow embedding of `xout.c`.

The program is single threaded and talks to the X server through Xlib.  The
embedding makes that explicit:

* every Xlib *query* the program performs (display geometry, keymap lookups,
  `XmuClientWindow`, `XkbRF_GetNamesProp`, ...) is a field of `Display`;
* every Xlib call with an *effect* (and every `warnx`) is recorded, in program
  order, in a trace of `Effect`s;
* the event queue read by `XNextEvent` / `XWindowEvent` is a list of `XEvent`s;
* `errx(1, ...)` ends a run with `Outcome.fatal`, and a read on an empty queue
  ends it with `Outcome.blocked` (the real program would wait forever).

`XEvent` is a C union.  Its key, button and motion views share one layout, and
in particular `e.type`, `e.xkey.type` and `e.xbutton.type` are the same storage.
The embedding therefore uses one record with a single `type` field, which is
what makes the write `e->xkey.type = KeyPress` in `forward_str` visible to
`grab` afterwards, exactly as in C.

C `int`s are embedded as `Int` and `unsigned` values as `Nat`.  The only
arithmetic performed on them is `npress++`/`npress--`, `DisplayWidth / 2`
(truncating division, `Int.tdiv`), `cx - x` and `0xff00 + *p`.  The subtraction
of `delta_from_center` is reduced to 32 bits (`wrap_int`), and the statements
about it assume that the difference is in the range of `int`; `npress` would
need 2^31 key presses in one episode to leave that range.
-/

namespace Xout

/-! ## Constants from the X11 headers (`X.h`, `keysymdef.h`) -/

abbrev Window := Nat
abbrev KeySym := Nat

/-- The X11 null resource id, written None in C. -/
def None : Nat := 0
def NoSymbol : KeySym := 0
def CurrentTime : Nat := 0
def KeyPress : Nat := 2
def KeyRelease : Nat := 3
def ButtonPress : Nat := 4
def ButtonRelease : Nat := 5
def MotionNotify : Nat := 6
def MappingNotify : Nat := 34
def ShiftMask : Nat := 1
def KeyPressMask : Nat := 1
def KeyReleaseMask : Nat := 2
def ButtonPressMask : Nat := 4
def ButtonReleaseMask : Nat := 8
def PointerMotionMask : Nat := 64
def MappingKeyboard : Int := 1
def GrabSuccess : Nat := 0
/-- Keysym of the key named Super_R, the toggle-forward key of main. -/
def XK_Super_R : KeySym := 0xffec
/-- Keysym of the key named Menu, the change-target key of main. -/
def XK_Menu : KeySym := 0xff67
/-- Fallback layout name, the macro DFLT_XKB_LAYOUT. -/
def DFLT_XKB_LAYOUT : List Char := ['u', 's']

/-! ## Data model -/

/-- The fields of the XEvent union that the program reads or writes.  The
fields from type to state are the common layout of the key, button and motion
views; keycode is xkey.keycode, button is xbutton.button, request is
xmapping.request. -/
structure XEvent where
  type : Nat := 0
  window : Window := 0
  root : Window := 0
  subwindow : Window := 0
  time : Nat := 0
  x : Int := 0
  y : Int := 0
  x_root : Int := 0
  y_root : Int := 0
  state : Nat := 0
  keycode : Nat := 0
  button : Nat := 0
  request : Int := 0
deriving DecidableEq

/-- Result of XkbRF_GetNamesProp(dpy, &tmp, &vd): the return value, the rules
file name stored in tmp (none for NULL) and the string vd.layout. -/
structure XkbRF_Names where
  ret : Bool
  tmp : Option (List Char)
  layout : List Char
deriving DecidableEq

/-- Everything the program asks of Xlib without changing anything. -/
structure Display where
  DisplayWidth : Int
  DisplayHeight : Int
  RootWindow : Window
  XKeysymToKeycode : KeySym → Nat
  /-- Arguments: keycode and shift level (the group is always 0). -/
  XkbKeycodeToKeysym : Nat → Nat → KeySym
  XmuClientWindow : Window → Window
  XkbRF_GetNamesProp : XkbRF_Names
  /-- Status returned by XGrabPointer in get_window_at_cursor. -/
  XGrabPointer : Nat
  /-- Root position reported by XQueryPointer. -/
  XQueryPointer : Int × Int

/-- Calls with an effect outside the process, in the order they are made. -/
inductive Effect where
  | XSendEvent (w : Window) (propagate : Bool) (event_mask : Nat) (e : XEvent)
  | XWarpPointer (dest_x dest_y : Int)
  | XSelectInput (event_mask : Nat)
  | XSync
  | XGrabPointer (event_mask : Nat) (cursor : Nat)
  | XGrabKeyboard
  | XUngrabPointer
  | XUngrabKeyboard
  | XAllowEvents
  | XMapRaised (w : Window)
  | XDrawString (w : Window) (s : List Char)
  | XUnmapWindow (w : Window)
  | XRefreshKeyboardMapping
  | warnx (msg : String)
deriving DecidableEq

/-- How a call ends: it returns a value, the process exits through errx, or it
waits for an event that the (finite) queue does not hold. -/
inductive Outcome (α : Type) where
  | done (a : α)
  | fatal (msg : String)
  | blocked
deriving DecidableEq

/-- A run of a piece of the program: the effects it had and how it ended. -/
structure Run (α : Type) where
  trace : List Effect
  result : Outcome α
deriving DecidableEq

/-- Sequencing of C statements: the second part runs only if the first one
returned, and the effects accumulate. -/
def Run.bind {α β : Type} (r : Run α) (f : α → Run β) : Run β :=
  match r.result with
  | .done a => ⟨r.trace ++ (f a).trace, (f a).result⟩
  | .fatal msg => ⟨r.trace, .fatal msg⟩
  | .blocked => ⟨r.trace, .blocked⟩

instance : Monad Run where
  pure a := ⟨[], .done a⟩
  bind := Run.bind

/-- A statement that only has effects. -/
def emit (es : List Effect) : Run Unit := ⟨es, .done ()⟩

/-! ## `ctype.h` in the C locale (the program never calls `setlocale`) -/

def isdigit (c : Char) : Bool := 48 ≤ c.toNat && c.toNat ≤ 57
def isupper (c : Char) : Bool := 65 ≤ c.toNat && c.toNat ≤ 90
def islower (c : Char) : Bool := 97 ≤ c.toNat && c.toNat ≤ 122
def isalnum (c : Char) : Bool := isdigit c || isupper c || islower c
def iscntrl (c : Char) : Bool := c.toNat < 32 || c.toNat == 127

/-! ## `snprintf` for the conversions the program uses -/

/-- One variadic argument of snprintf, tagged with its conversion. -/
inductive Arg where
  | c (ch : Char)
  | lu (n : Nat)
  | u (n : Nat)
  | d (i : Int)
  | s (str : List Char)

/-- A C string stops at the first NUL. -/
def cstr (s : List Char) : List Char := s.takeWhile (fun c => c != Char.ofNat 0)

/-- Decimal text of an int, as %d prints it. -/
def fmt_d (i : Int) : List Char :=
  if i < 0 then '-' :: Nat.toDigits 10 i.natAbs else Nat.toDigits 10 i.natAbs

/-- The complete text a format produces, before any truncation. -/
def vformat : List Char → List Arg → List Char
  | '%' :: 'c' :: rest, Arg.c ch :: args => ch :: vformat rest args
  | '%' :: 'l' :: 'u' :: rest, Arg.lu n :: args => Nat.toDigits 10 n ++ vformat rest args
  | '%' :: 'u' :: rest, Arg.u n :: args => Nat.toDigits 10 n ++ vformat rest args
  | '%' :: 'd' :: rest, Arg.d i :: args => fmt_d i ++ vformat rest args
  | '%' :: 's' :: rest, Arg.s str :: args => cstr str ++ vformat rest args
  | ch :: rest, args => ch :: vformat rest args
  | [], _ => []

/-- The call snprintf(buf, size, format, args...): the buffer holds at most
size - 1 characters of the text, the return value is the length of the whole
text. -/
def snprintf (size : Nat) (format : List Char) (args : List Arg) : List Char × Nat :=
  ((vformat format args).take (size - 1), (vformat format args).length)

/-! ## Protocol encoder / injector -/

def bogus_control_string : String := "attempted to send bogus control string"

/-- The function forward_str: one synthetic KeyPress per character of s, sent
with the caller's event record, which is overwritten in place. The result is
that record as the call leaves it. -/
def forward_str (dpy : Display) (e : XEvent) : List Char → Window → Run XEvent
  | [], _ => ⟨[], .done e⟩
  | p :: s, target =>
    if p = Char.ofNat 0 then ⟨[], .done e⟩
    else if !isalnum p && p != ' ' && p != '\r' && p != '-' then
      ⟨[], .fatal bogus_control_string⟩
    else
      let e1 : XEvent :=
        if iscntrl p then { e with keycode := dpy.XKeysymToKeycode (0xff00 + p.toNat) }
        else { e with keycode := dpy.XKeysymToKeycode p.toNat }
      let e2 : XEvent := { e1 with window := target, subwindow := target }
      let e3 : XEvent := if isupper p then { e2 with state := ShiftMask } else { e2 with state := 0 }
      let e4 : XEvent := { e3 with type := KeyPress, time := CurrentTime }
      let r := forward_str dpy e4 s target
      ⟨Effect.XSendEvent target false KeyPressMask e4 :: r.trace, r.result⟩

/-- The shift level handed to XkbKeycodeToKeysym: state & ShiftMask ? 1 : 0. -/
def shift_level (state : Nat) : Nat := if state &&& ShiftMask ≠ 0 then 1 else 0

/-- The snprintf call of forward_xkey: buffer s[16] and return value. -/
def xkey_line (dpy : Display) (e : XEvent) : List Char × Nat :=
  let sym := dpy.XkbKeycodeToKeysym e.keycode (shift_level e.state)
  snprintf 16 "%c %lu\r".toList [Arg.c (if e.type = KeyPress then 'k' else 'K'), Arg.lu sym]

def forward_xkey (dpy : Display) (e : XEvent) (target : Window) : Run XEvent :=
  if (xkey_line dpy e).2 ≥ 16 then
    ⟨[Effect.warnx "xkey forward did not fit"], .done e⟩
  else forward_str dpy e (xkey_line dpy e).1 target

/-- The snprintf call of forward_xbutton: buffer s[16] and return value. -/
def xbutton_line (e : XEvent) : List Char × Nat :=
  snprintf 16 "%c %u %u\r".toList
    [Arg.c (if e.type = ButtonPress then 'b' else 'B'), Arg.u e.state, Arg.u e.button]

def forward_xbutton (dpy : Display) (e : XEvent) (target : Window) : Run XEvent :=
  if (xbutton_line e).2 ≥ 16 then
    ⟨[Effect.warnx "xbutton forward did not fit"], .done e⟩
  else forward_str dpy e (xbutton_line e).1 target

/-- The value of an int expression in 32 bit two's complement. -/
def wrap_int (i : Int) : Int := (i + 2147483648) % 4294967296 - 2147483648

def delta_from_center (dpy : Display) (x y : Int) : Int × Int :=
  let cx := Int.tdiv dpy.DisplayWidth 2
  let cy := Int.tdiv dpy.DisplayHeight 2
  (wrap_int (cx - x), wrap_int (cy - y))

def warp_center (dpy : Display) : List Effect :=
  let cx := Int.tdiv dpy.DisplayWidth 2
  let cy := Int.tdiv dpy.DisplayHeight 2
  [Effect.XWarpPointer cx cy]

/-- The snprintf call of forward_xmotion: buffer s[16] and return value. -/
def xmotion_line (dx dy : Int) : List Char × Nat :=
  snprintf 16 "m %d %d\r".toList [Arg.d dx, Arg.d dy]

/-- The function forward_xmotion.  Its function-static record xb is written on
the first call and never read, so it is left out. -/
def forward_xmotion (dpy : Display) (e : XEvent) (target : Window) : Run XEvent :=
  let d := delta_from_center dpy e.x_root e.y_root
  if d.1 = 0 ∧ d.2 = 0 then ⟨[], .done e⟩
  else if (xmotion_line d.1 d.2).2 ≥ 16 then
    ⟨warp_center dpy ++ [Effect.warnx "xmotion forward did not fit"], .done e⟩
  else
    let r := forward_str dpy e (xmotion_line d.1 d.2).1 target
    ⟨warp_center dpy ++ r.trace, r.result⟩

def update_mapping (e : XEvent) : List Effect :=
  if e.request = MappingKeyboard then [Effect.XRefreshKeyboardMapping] else []

/-- Whether forward_mapping falls back to the default layout:
!XkbRF_GetNamesProp(...) || tmp == NULL. -/
def names_failed (q : XkbRF_Names) : Bool := !q.ret || q.tmp.isNone

/-- The string vd.layout that forward_mapping prints. -/
def mapping_layout (dpy : Display) : List Char :=
  if names_failed dpy.XkbRF_GetNamesProp then DFLT_XKB_LAYOUT
  else dpy.XkbRF_GetNamesProp.layout

/-- The snprintf call of forward_mapping: buffer s[32] and return value. -/
def mapping_line (dpy : Display) : List Char × Nat :=
  snprintf 32 "l %s\r".toList [Arg.s (mapping_layout dpy)]

/-- The function forward_mapping; its event record starts zeroed. -/
def forward_mapping (dpy : Display) (target : Window) : Run Unit :=
  let warn : List Effect :=
    if names_failed dpy.XkbRF_GetNamesProp then [Effect.warnx "couldn't interpret"] else []
  if (mapping_line dpy).2 ≥ 32 then
    ⟨warn ++ [Effect.warnx "layout forward did not fit"], .done ()⟩
  else
    let r := forward_str dpy {} (mapping_line dpy).1 target
    ⟨warn ++ r.trace, match r.result with
      | .done _ => .done ()
      | .fatal msg => .fatal msg
      | .blocked => .blocked⟩

/-! ## Input grab engine -/

/-- The variables of grab that live across iterations of its loop. -/
structure GrabState where
  grabbed : Bool
  npress : Int
  keysym : KeySym
deriving DecidableEq

/-- The for loop of grab over the break keys: the pair (ignore, grabbed). -/
def scan_breaks (keysym : KeySym) (type : Nat) (breaks : List KeySym) (grabbed : Bool) :
    Bool × Bool :=
  breaks.foldl
    (fun acc b =>
      if keysym ≠ b then acc
      else (true, if type = KeyRelease then false else acc.2))
    (false, grabbed)

/-- The part of the switch in grab shared by KeyPress and KeyRelease (from the
label KeyRelease to its break); npress has already been incremented for a
press.  After forward_xkey the test of e.type reads the record that
forward_xkey was given a pointer to. -/
def grab_key (dpy : Display) (target : Window) (breaks : List KeySym)
    (st : GrabState) (e : XEvent) : Run GrabState :=
  let keysym := dpy.XkbKeycodeToKeysym e.keycode (shift_level e.state)
  let ig := scan_breaks keysym e.type breaks st.grabbed
  if ig.1 then ⟨[], .done { grabbed := ig.2, npress := st.npress, keysym := keysym }⟩
  else if e.type = KeyPress ∨ st.npress > 0 then
    let r := forward_xkey dpy e target
    match r.result with
    | .done e1 =>
      ⟨r.trace, .done { grabbed := ig.2,
                        npress := if e1.type = KeyRelease then st.npress - 1 else st.npress,
                        keysym := keysym }⟩
    | .fatal msg => ⟨r.trace, .fatal msg⟩
    | .blocked => ⟨r.trace, .blocked⟩
  else if st.npress < 1 then
    ⟨[Effect.warnx "skipped sending keyrelease"],
      .done { grabbed := ig.2, npress := st.npress, keysym := keysym }⟩
  else ⟨[], .done { grabbed := ig.2, npress := st.npress, keysym := keysym }⟩

/-- One iteration of the while loop of grab, after XNextEvent has stored the
event e: the switch on e.type. -/
def grab_step (dpy : Display) (target : Window) (breaks : List KeySym)
    (st : GrabState) (e : XEvent) : Run GrabState :=
  if e.type = KeyPress then
    grab_key dpy target breaks { st with npress := st.npress + 1 } e
  else if e.type = KeyRelease then
    grab_key dpy target breaks st e
  else if e.type = ButtonPress ∨ e.type = ButtonRelease then
    (forward_xbutton dpy e target).bind fun _ => pure st
  else if e.type = MotionNotify then
    (forward_xmotion dpy e target).bind fun _ => pure st
  else if e.type = MappingNotify then
    (emit (update_mapping e)).bind fun _ =>
      (forward_mapping dpy target).bind fun _ => pure st
  else pure st

/-- The while loop of grab on an event queue; it returns the final variables
and the events it has not read. -/
def grab_loop (dpy : Display) (target : Window) (breaks : List KeySym) :
    GrabState → List XEvent → Run (GrabState × List XEvent)
  | st, [] => if st.grabbed then ⟨[], .blocked⟩ else pure (st, [])
  | st, e :: q =>
    if st.grabbed then
      (grab_step dpy target breaks st e).bind fun st1 => grab_loop dpy target breaks st1 q
    else pure (st, e :: q)

/-- The function grab.  The local keysym is uninitialised in C; it is only
returned after the loop has assigned it. -/
def grab (dpy : Display) (cursor : Nat) (target : Window) (breaks : List KeySym)
    (q : List XEvent) : Run (KeySym × List XEvent) :=
  (emit [Effect.XSelectInput
          (PointerMotionMask ||| ButtonPressMask ||| ButtonReleaseMask |||
            KeyPressMask ||| KeyReleaseMask),
         Effect.XSync,
         Effect.XGrabPointer (PointerMotionMask ||| ButtonReleaseMask ||| ButtonPressMask) cursor,
         Effect.XGrabKeyboard]).bind fun _ =>
  (grab_loop dpy target breaks { grabbed := true, npress := 0, keysym := NoSymbol } q).bind
    fun r =>
  (emit [Effect.XUngrabPointer, Effect.XUngrabKeyboard, Effect.XSelectInput None,
         Effect.XSync]).bind fun _ =>
  pure (r.1.keysym, r.2)

/-! ## Target selection and the main loop -/

def wait_key (dpy : Display) : List XEvent → Run (KeySym × List XEvent)
  | [] => ⟨[], .blocked⟩
  | e :: q =>
    if e.type = KeyRelease then
      pure (dpy.XkbKeycodeToKeysym e.keycode (shift_level e.state), q)
    else if e.type = MappingNotify then
      (emit (update_mapping e)).bind fun _ => wait_key dpy q
    else wait_key dpy q

/-- Xlib XWindowEvent for the mask ButtonReleaseMask: the first queued
ButtonRelease event of window w is removed and returned, the other events stay
queued in order. -/
def XWindowEvent (w : Window) : List XEvent → Option (XEvent × List XEvent)
  | [] => none
  | e :: q =>
    if e.window = w ∧ e.type = ButtonRelease then some (e, q)
    else (XWindowEvent w q).map fun r => (r.1, e :: r.2)

/-- The while loop of get_window_at_cursor.  Each iteration removes one event
from the queue, so a fuel above the queue length is never used up. -/
def get_window_loop (dpy : Display) :
    Nat → Window → List XEvent → Run (Window × List XEvent)
  | 0, _, _ => ⟨[], .blocked⟩
  | fuel + 1, retwin, q =>
    if retwin = None then
      match XWindowEvent dpy.RootWindow q with
      | none => ⟨[Effect.XAllowEvents], .blocked⟩
      | some (e, q1) =>
        (emit [Effect.XAllowEvents]).bind fun _ =>
          get_window_loop dpy fuel (if e.type = ButtonRelease then e.subwindow else retwin) q1
    else pure (retwin, q)

def get_window_at_cursor (dpy : Display) (crosshair : Nat) (q : List XEvent) :
    Run (Window × List XEvent) :=
  if dpy.XGrabPointer ≠ GrabSuccess then
    ⟨[Effect.XGrabPointer ButtonReleaseMask crosshair], .fatal "unable to grab cursor"⟩
  else
    (emit [Effect.XGrabPointer ButtonReleaseMask crosshair]).bind fun _ =>
    (get_window_loop dpy (q.length + 2) None q).bind fun r =>
    (emit [Effect.XUngrabPointer, Effect.XSync]).bind fun _ =>
    pure (dpy.XmuClientWindow r.1, r.2)

def select_prompt : List Char := "Select target window for event forwarding".toList

def change_target (dpy : Display) (selwin : Window) (crosshair : Nat) (q : List XEvent) :
    Run (Window × List XEvent) :=
  (emit [Effect.XMapRaised selwin, Effect.XDrawString selwin select_prompt,
         Effect.XSync]).bind fun _ =>
  (get_window_at_cursor dpy crosshair q).bind fun r =>
  (emit [Effect.XUnmapWindow selwin]).bind fun _ =>
  pure r

def store_cursor_xy (dpy : Display) : Int × Int := dpy.XQueryPointer

def restore_cursor_xy (x y : Int) : List Effect := [Effect.XWarpPointer x y, Effect.XSync]

/-- What main sets up before its loop and never changes afterwards. -/
structure Config where
  toggle_forward_key : KeySym
  change_target_key : KeySym
  selwin : Window
  cursor : Nat
  crosshair : Nat

/-- The variables of main that live across iterations of its loop. -/
structure MainState where
  keysym : KeySym
  target : Window
deriving DecidableEq

/-- The first statement of the loop body of main: the if/else that decides
whether wait_key and change_target run. -/
def main_select (dpy : Display) (cfg : Config) (st : MainState) (q : List XEvent) :
    Run (MainState × List XEvent) :=
  if st.keysym = cfg.change_target_key then
    (change_target dpy cfg.selwin cfg.crosshair q).bind fun r =>
      pure ({ st with target := r.1 }, r.2)
  else
    (wait_key dpy q).bind fun k =>
      if k.1 = cfg.change_target_key then
        (change_target dpy cfg.selwin cfg.crosshair k.2).bind fun r =>
          pure ({ keysym := k.1, target := r.1 }, r.2)
      else pure ({ st with keysym := k.1 }, k.2)

/-- The rest of the loop body of main once target is not None: the statements
from store_cursor_xy to restore_cursor_xy. -/
def main_forward (dpy : Display) (cfg : Config) (st : MainState) (q : List XEvent) :
    Run (MainState × List XEvent) :=
  let xy := store_cursor_xy dpy
  (emit (warp_center dpy)).bind fun _ =>
  (forward_mapping dpy st.target).bind fun _ =>
  (grab dpy cfg.cursor st.target [cfg.toggle_forward_key, cfg.change_target_key] q).bind
    fun g =>
  (emit (restore_cursor_xy xy.1 xy.2)).bind fun _ =>
  pure ({ st with keysym := g.1 }, g.2)

/-- One execution of the body of the for loop of main. -/
def main_iter (dpy : Display) (cfg : Config) (st : MainState) (q : List XEvent) :
    Run (MainState × List XEvent) :=
  (main_select dpy cfg st q).bind fun s =>
    if s.1.target = None then pure ({ s.1 with keysym := None }, s.2)
    else main_forward dpy cfg s.1 s.2

/-- The first n iterations of the for loop of main. -/
def main_loop (dpy : Display) (cfg : Config) :
    Nat → MainState → List XEvent → Run (MainState × List XEvent)
  | 0, st, q => pure (st, q)
  | n + 1, st, q => (main_iter dpy cfg st q).bind fun s => main_loop dpy cfg n s.1 s.2

/-- The variables keysym and target as main initialises them. -/
def main_init : MainState := { keysym := None, target := None }

/-! ## Concrete inputs used in the examples below -/

/-- A 1920x1080 display whose keymap is the identity (keycode n carries keysym
n at both shift levels), whose windows are their own client windows, and whose
layout query succeeds with the name us. -/
def dpy0 : Display where
  DisplayWidth := 1920
  DisplayHeight := 1080
  RootWindow := 1
  XKeysymToKeycode := fun k => k
  XkbKeycodeToKeysym := fun kc _ => kc
  XmuClientWindow := fun w => w
  XkbRF_GetNamesProp := { ret := true, tmp := some "evdev".toList, layout := "us".toList }
  XGrabPointer := 0
  XQueryPointer := (10, 20)

def cfg0 : Config where
  toggle_forward_key := XK_Super_R
  change_target_key := XK_Menu
  selwin := 2
  cursor := 3
  crosshair := 4

/-- The display dpy0 with the two-layout name us,ru. -/
def dpy_two_layouts : Display :=
  { dpy0 with
    XkbRF_GetNamesProp := { ret := true, tmp := some "evdev".toList, layout := "us,ru".toList } }

/-- The display dpy0 with a layout name of 29 letters. -/
def dpy_long_layout : Display :=
  { dpy0 with
    XkbRF_GetNamesProp :=
      { ret := true, tmp := some "evdev".toList, layout := List.replicate 29 'a' } }

/-- The display dpy0 with a failing layout query. -/
def dpy_no_names : Display :=
  { dpy0 with XkbRF_GetNamesProp := { ret := false, tmp := none, layout := [] } }

/-- A display of the largest size the X11 protocol can address. -/
def dpy_huge : Display := { dpy0 with DisplayWidth := 32767, DisplayHeight := 32767 }

/-- Press of the key with keycode kc (keysym kc under the keymap of dpy0). -/
def press (kc : Nat) : XEvent := { type := KeyPress, keycode := kc }

/-- Release of the key with keycode kc. -/
def release (kc : Nat) : XEvent := { type := KeyRelease, keycode := kc }

/-- Pointer motion to the root position (x, y). -/
def motion (x y : Int) : XEvent := { type := MotionNotify, x_root := x, y_root := y }

/-- The keycodes of the synthetic events of a trace, in order. -/
def sent_keycodes : List Effect → List Nat
  | [] => []
  | Effect.XSendEvent _ _ _ e :: t => e.keycode :: sent_keycodes t
  | _ :: t => sent_keycodes t

/-- The synthetic events of a trace, in order. -/
def sent_events : List Effect → List XEvent
  | [] => []
  | Effect.XSendEvent _ _ _ e :: t => e :: sent_events t
  | _ :: t => sent_events t

/-- Number of injected characters k (unshifted) in a trace, read back through
the identity keymap of dpy0.  Every forwarded key press is one line whose only
letter is its tag k, so on a run of key events this counts the forwarded
presses. -/
def forwarded_presses (t : List Effect) : Nat :=
  ((sent_events t).filter (fun e => e.keycode = 0x6b ∧ e.state = 0)).length

/-- Number of injected characters K (shifted) in a trace: the forwarded key
releases of a run of key events. -/
def forwarded_releases (t : List Effect) : Nat :=
  ((sent_events t).filter (fun e => e.keycode = 0x4b ∧ e.state = ShiftMask)).length

/-- The characters of a text as keysyms: the character code, plus 0xff00 for
the carriage return. -/
def keysyms_of (s : String) : List Nat :=
  s.data.map (fun c => if c = '\r' then 0xff00 + c.toNat else c.toNat)

/-- A receiver for the identity keymap of dpy0: the keycode is the keysym, and
a keysym from 0xff00 on is a control character moved up by 0xff00. -/
def decode_identity (ev : XEvent) : Char :=
  Char.ofNat (if 0xff00 ≤ ev.keycode then ev.keycode - 0xff00 else ev.keycode)

/-! ## Specification-side vocabulary -/

/-- The character set of the specification: A-Z, a-z, 0-9, space, minus and
carriage return. -/
def Injectable (c : Char) : Prop :=
  ('A' ≤ c ∧ c ≤ 'Z') ∨ ('a' ≤ c ∧ c ≤ 'z') ∨ ('0' ≤ c ∧ c ≤ '9') ∨
    c = ' ' ∨ c = '-' ∨ c = '\r'

instance (c : Char) : Decidable (Injectable c) := by
  unfold Injectable; infer_instance

/-- The synthetic event the specification describes for the character c:
a KeyPress for the target whose keycode is looked up from the character code
(plus 0xff00 for a control character) and whose state is ShiftMask exactly for
an uppercase letter; the remaining fields are those of the record e. -/
def char_event (dpy : Display) (target : Window) (e : XEvent) (c : Char) : XEvent :=
  { e with
    type := KeyPress
    window := target
    subwindow := target
    time := CurrentTime
    state := if 'A' ≤ c ∧ c ≤ 'Z' then ShiftMask else 0
    keycode := dpy.XKeysymToKeycode
      (if c.toNat < 32 ∨ c.toNat = 127 then 0xff00 + c.toNat else c.toNat) }

/-- Decimal numeral of a natural number, as the specification writes it. -/
def decimal (n : Nat) : List Char := (Nat.repr n).data

/-- Decimal numeral of a signed integer, with a leading minus when negative. -/
def decimal_int (i : Int) : List Char := (Int.repr i).data

/-- The protocol line of a key command: tag, space, decimal keysym, CR. -/
def key_line (tag : Char) (sym : KeySym) : List Char :=
  [tag, ' '] ++ decimal sym ++ ['\r']

/-- The protocol line of a button command: tag, modifier mask, button, CR. -/
def button_line (tag : Char) (mask button : Nat) : List Char :=
  [tag, ' '] ++ decimal mask ++ [' '] ++ decimal button ++ ['\r']

/-- The protocol line of a motion command carrying the pair (dx, dy). -/
def motion_line (dx dy : Int) : List Char :=
  ['m', ' '] ++ decimal_int dx ++ [' '] ++ decimal_int dy ++ ['\r']

/-- The protocol line of a layout command. -/
def layout_line (name : List Char) : List Char :=
  ['l', ' '] ++ name ++ ['\r']

/-! ## Lemmas on characters and decimal text -/

theorem char_eq_iff_toNat (c d : Char) : c = d ↔ c.toNat = d.toNat := by
  constructor
  · intro h; rw [h]
  · intro h
    have := congrArg Char.ofNat h
    simpa using this

theorem char_le_iff_toNat (c d : Char) : c ≤ d ↔ c.toNat ≤ d.toNat := Iff.rfl

theorem injectable_iff_toNat (c : Char) :
    Injectable c ↔
      ((65 ≤ c.toNat ∧ c.toNat ≤ 90) ∨ (97 ≤ c.toNat ∧ c.toNat ≤ 122) ∨
        (48 ≤ c.toNat ∧ c.toNat ≤ 57) ∨ c.toNat = 32 ∨ c.toNat = 45 ∨ c.toNat = 13) := by
  unfold Injectable
  simp only [char_le_iff_toNat, char_eq_iff_toNat]
  rfl

/-- The guard of forward_str rejects exactly the characters outside the set of
the specification. -/
theorem guard_iff_not_injectable (p : Char) :
    (!isalnum p && p != ' ' && p != '\r' && p != '-') = true ↔ ¬ Injectable p := by
  rw [injectable_iff_toNat]
  have h1 : (p != ' ') = true ↔ p.toNat ≠ 32 := by
    simp [bne_iff_ne, char_eq_iff_toNat]
  have h2 : (p != '\r') = true ↔ p.toNat ≠ 13 := by
    simp [bne_iff_ne, char_eq_iff_toNat]
  have h3 : (p != '-') = true ↔ p.toNat ≠ 45 := by
    simp [bne_iff_ne, char_eq_iff_toNat]
  simp only [Bool.and_eq_true, h1, h2, h3, isalnum, isdigit, isupper, islower,
    Bool.not_eq_true', Bool.or_eq_false_iff, Bool.and_eq_false_iff, decide_eq_false_iff_not,
    Bool.or_eq_true, decide_eq_true_eq]
  omega

theorem injectable_ne_nul (c : Char) (h : Injectable c) : c ≠ Char.ofNat 0 := by
  rw [injectable_iff_toNat] at h
  intro hc
  rw [char_eq_iff_toNat] at hc
  have : (Char.ofNat 0).toNat = 0 := by decide
  omega

/-! ## forward_str -/

theorem forward_str_nil (dpy : Display) (e : XEvent) (target : Window) :
    forward_str dpy e [] target = ⟨[], .done e⟩ := rfl

theorem forward_str_nul (dpy : Display) (e : XEvent) (s : List Char) (target : Window) :
    forward_str dpy e (Char.ofNat 0 :: s) target = ⟨[], .done e⟩ := by
  simp [forward_str]

theorem forward_str_bogus (dpy : Display) (e : XEvent) (p : Char) (s : List Char)
    (target : Window) (h0 : p ≠ Char.ofNat 0) (hp : ¬ Injectable p) :
    forward_str dpy e (p :: s) target = ⟨[], .fatal bogus_control_string⟩ := by
  have hg := (guard_iff_not_injectable p).2 hp
  rw [forward_str, if_neg h0, if_pos hg]

/-- The event record after the four assignments of one loop iteration of
forward_str is the event of the specification for that character. -/
theorem forward_str_cons (dpy : Display) (e : XEvent) (p : Char) (s : List Char)
    (target : Window) (hp : Injectable p) :
    forward_str dpy e (p :: s) target =
      ⟨Effect.XSendEvent target false KeyPressMask (char_event dpy target e p) ::
          (forward_str dpy (char_event dpy target e p) s target).trace,
        (forward_str dpy (char_event dpy target e p) s target).result⟩ := by
  have h0 := injectable_ne_nul p hp
  have hg : ¬ ((!isalnum p && p != ' ' && p != '\r' && p != '-') = true) := by
    rw [guard_iff_not_injectable]; exact fun h => h hp
  have hev : (({ ((if isupper p then
                { ((({ (if iscntrl p then
                        { e with keycode := dpy.XKeysymToKeycode (0xff00 + p.toNat) }
                      else { e with keycode := dpy.XKeysymToKeycode p.toNat }) with
                      window := target, subwindow := target }) : XEvent)) with
                  state := ShiftMask }
              else
                { ((({ (if iscntrl p then
                        { e with keycode := dpy.XKeysymToKeycode (0xff00 + p.toNat) }
                      else { e with keycode := dpy.XKeysymToKeycode p.toNat }) with
                      window := target, subwindow := target }) : XEvent)) with
                  state := 0 }) : XEvent) with
              type := KeyPress, time := CurrentTime }) : XEvent) =
      char_event dpy target e p := by
    unfold char_event
    by_cases hc : iscntrl p = true <;> by_cases hu : isupper p = true
    all_goals
      have hc1 := hc
      have hu1 := hu
      simp only [iscntrl, isupper, Bool.or_eq_true, Bool.and_eq_true, decide_eq_true_eq,
        beq_iff_eq] at hc1 hu1
      simp only [hc, hu, if_true, if_false, Bool.false_eq_true, char_le_iff_toNat]
      have e65 : ('A' : Char).toNat = 65 := rfl
      have e90 : ('Z' : Char).toNat = 90 := rfl
      simp only [e65, e90, hc1, hu1, if_true, if_false, and_self]
  rw [forward_str, if_neg h0, if_neg hg]
  simp only [hev]

theorem char_event_idem (dpy : Display) (target : Window) (e : XEvent) (c d : Char) :
    char_event dpy target (char_event dpy target e c) d = char_event dpy target e d := rfl

theorem forward_str_trace (dpy : Display) (target : Window) (s : List Char) :
    ∀ e : XEvent, (∀ c ∈ s, Injectable c) →
      (forward_str dpy e s target).trace =
        s.map (fun c => Effect.XSendEvent target false KeyPressMask (char_event dpy target e c)) := by
  induction s with
  | nil => intro e _; rfl
  | cons p s ih =>
    intro e h
    have hp : Injectable p := h p (List.mem_cons_self _ _)
    have hs : ∀ c ∈ s, Injectable c := fun c hc => h c (List.mem_cons_of_mem _ hc)
    rw [forward_str_cons dpy e p s target hp]
    simp only [List.map_cons, ih (char_event dpy target e p) hs, char_event_idem]

theorem sent_events_map (f : Char → XEvent) (w : Window) (b : Bool) (m : Nat) (s : List Char) :
    sent_events (s.map (fun c => Effect.XSendEvent w b m (f c))) = s.map f := by
  induction s with
  | nil => rfl
  | cons p s ih => simp [sent_events, ih]

/-- The run of forward_str ends in the fatal error exactly when the C string
holds a character outside the set; otherwise it returns. -/
theorem forward_str_result (dpy : Display) (target : Window) (s : List Char) :
    ∀ e : XEvent,
      ((forward_str dpy e s target).result = .fatal bogus_control_string ↔
          ∃ c ∈ cstr s, ¬ Injectable c) ∧
        ((∃ e1, (forward_str dpy e s target).result = .done e1) ↔
          ∀ c ∈ cstr s, Injectable c) := by
  induction s with
  | nil => intro e; simp [forward_str, cstr]
  | cons p s ih =>
    intro e
    by_cases h0 : p = Char.ofNat 0
    · subst h0
      rw [forward_str_nul]
      simp [cstr]
    · have hc : cstr (p :: s) = p :: cstr s := by
        simp [cstr, List.takeWhile_cons, h0]
      by_cases hp : Injectable p
      · rw [forward_str_cons dpy e p s target hp, hc]
        have := ih (char_event dpy target e p)
        simp only [List.mem_cons, exists_eq_or_imp, forall_eq_or_imp, hp, not_true_eq_false,
          false_or, true_and, this.1, this.2]
      · rw [forward_str_bogus dpy e p s target h0 hp, hc]
        constructor
        · simp only [true_iff]
          exact ⟨p, List.mem_cons_self _ _, hp⟩
        · constructor
          · rintro ⟨e1, h⟩; cases h
          · intro h; exact absurd (h p (List.mem_cons_self _ _)) hp

/-! ## Decimal text and the formatted lines -/

theorem decimal_eq (n : Nat) : decimal n = Nat.toDigits 10 n := rfl

theorem decimal_int_eq (i : Int) : decimal_int i = fmt_d i := by
  cases i with
  | ofNat n =>
    have h : ¬ (Int.ofNat n < 0) := by simp
    simp only [fmt_d, if_neg h]
    rfl
  | negSucc n =>
    have h : Int.negSucc n < 0 := Int.negSucc_lt_zero n
    simp only [fmt_d, if_pos h]
    rfl

theorem digitChar_isdigit : ∀ d, d < 10 → isdigit (Nat.digitChar d) = true := by
  decide

theorem toDigitsCore_all (P : Char → Prop) (hP : ∀ d, d < 10 → P (Nat.digitChar d)) :
    ∀ (fuel n : Nat) (ds : List Char), (∀ c ∈ ds, P c) →
      ∀ c ∈ Nat.toDigitsCore 10 fuel n ds, P c := by
  intro fuel
  induction fuel with
  | zero => intro n ds h; simpa [Nat.toDigitsCore] using h
  | succ f ih =>
    intro n ds h
    have hd : ∀ c ∈ Nat.digitChar (n % 10) :: ds, P c := by
      intro c hc
      rcases List.mem_cons.1 hc with rfl | hc
      · exact hP _ (Nat.mod_lt _ (by decide))
      · exact h c hc
    unfold Nat.toDigitsCore
    by_cases hz : n / 10 = 0
    · simpa [hz] using hd
    · simp only [hz, if_false]
      exact ih (n / 10) _ hd

theorem isdigit_injectable (c : Char) (h : isdigit c = true) : Injectable c := by
  rw [injectable_iff_toNat]
  simp only [isdigit, Bool.and_eq_true, decide_eq_true_eq] at h
  omega

theorem decimal_injectable (n : Nat) : ∀ c ∈ Nat.toDigits 10 n, Injectable c := by
  unfold Nat.toDigits
  apply toDigitsCore_all Injectable
  · intro d hd; exact isdigit_injectable _ (digitChar_isdigit d hd)
  · intro c hc; cases hc

theorem fmt_d_injectable (i : Int) : ∀ c ∈ fmt_d i, Injectable c := by
  intro c hc
  unfold fmt_d at hc
  split at hc
  · rcases List.mem_cons.1 hc with rfl | hc
    · decide
    · exact decimal_injectable _ c hc
  · exact decimal_injectable _ c hc

theorem xkey_text (dpy : Display) (e : XEvent) :
    vformat "%c %lu\r".toList
        [Arg.c (if e.type = KeyPress then 'k' else 'K'),
          Arg.lu (dpy.XkbKeycodeToKeysym e.keycode (shift_level e.state))] =
      key_line (if e.type = KeyPress then 'k' else 'K')
        (dpy.XkbKeycodeToKeysym e.keycode (shift_level e.state)) := rfl

theorem xbutton_text (e : XEvent) :
    vformat "%c %u %u\r".toList
        [Arg.c (if e.type = ButtonPress then 'b' else 'B'), Arg.u e.state, Arg.u e.button] =
      button_line (if e.type = ButtonPress then 'b' else 'B') e.state e.button := by
  simp [vformat, button_line, decimal_eq]

theorem xmotion_text (dx dy : Int) :
    vformat "m %d %d\r".toList [Arg.d dx, Arg.d dy] = motion_line dx dy := by
  simp [vformat, motion_line, decimal_int_eq]

theorem mapping_text (name : List Char) :
    vformat "l %s\r".toList [Arg.s name] = layout_line (cstr name) := by
  simp [vformat, layout_line]

theorem cstr_of_injectable (s : List Char) (h : ∀ c ∈ s, Injectable c) : cstr s = s := by
  unfold cstr
  rw [List.takeWhile_eq_self_iff]
  intro c hc
  simpa [bne_iff_ne] using injectable_ne_nul c (h c hc)

/-- On an accepted string forward_str returns, leaving the record as the last
character made it. -/
theorem forward_str_done (dpy : Display) (target : Window) (s : List Char) :
    ∀ e : XEvent, (∀ c ∈ s, Injectable c) →
      (forward_str dpy e s target).result =
        .done (match s.getLast? with
          | none => e
          | some c => char_event dpy target e c) := by
  induction s with
  | nil => intro e _; rfl
  | cons p s ih =>
    intro e h
    have hp : Injectable p := h p (List.mem_cons_self _ _)
    have hs : ∀ c ∈ s, Injectable c := fun c hc => h c (List.mem_cons_of_mem _ hc)
    rw [forward_str_cons dpy e p s target hp]
    simp only [ih (char_event dpy target e p) hs]
    cases s with
    | nil => rfl
    | cons c s =>
      rw [List.getLast?_cons_cons]
      cases hl : (c :: s).getLast? with
      | none => simp at hl
      | some d => rfl

theorem forward_str_never_other (dpy : Display) (target : Window) (s : List Char)
    (e : XEvent) (msg : String) (h : ∀ c ∈ s, Injectable c) :
    (forward_str dpy e s target).result ≠ .fatal msg := by
  rw [forward_str_done dpy target s e h]
  intro hc; cases hc

theorem key_line_injectable (tag : Char) (sym : KeySym) (ht : Injectable tag) :
    ∀ c ∈ key_line tag sym, Injectable c := by
  intro c hc
  simp only [key_line, List.mem_append, List.mem_cons, List.mem_singleton,
    List.not_mem_nil, or_false] at hc
  rcases hc with ((rfl | rfl) | hc) | rfl
  · exact ht
  · decide
  · exact decimal_injectable sym c hc
  · decide

theorem button_line_injectable (tag : Char) (m b : Nat) (ht : Injectable tag) :
    ∀ c ∈ button_line tag m b, Injectable c := by
  intro c hc
  simp only [button_line, List.mem_append, List.mem_cons, List.mem_singleton,
    List.not_mem_nil, or_false] at hc
  rcases hc with ((((rfl | rfl) | hc) | rfl) | hc) | rfl
  · exact ht
  · decide
  · exact decimal_injectable m c hc
  · decide
  · exact decimal_injectable b c hc
  · decide

theorem motion_line_injectable (dx dy : Int) : ∀ c ∈ motion_line dx dy, Injectable c := by
  intro c hc
  simp only [motion_line, decimal_int_eq, List.mem_append, List.mem_cons, List.mem_singleton,
    List.not_mem_nil, or_false] at hc
  rcases hc with ((((rfl | rfl) | hc) | rfl) | hc) | rfl
  · decide
  · decide
  · exact fmt_d_injectable dx c hc
  · decide
  · exact fmt_d_injectable dy c hc
  · decide

theorem key_tag_injectable (b : Prop) [Decidable b] : Injectable (if b then 'k' else 'K') := by
  split <;> decide

theorem button_tag_injectable (b : Prop) [Decidable b] :
    Injectable (if b then 'b' else 'B') := by
  split <;> decide

theorem xkey_line_injectable (dpy : Display) (e : XEvent) :
    ∀ c ∈ (xkey_line dpy e).1, Injectable c := by
  intro c hc
  have hc1 : c ∈ vformat "%c %lu\r".toList
      [Arg.c (if e.type = KeyPress then 'k' else 'K'),
        Arg.lu (dpy.XkbKeycodeToKeysym e.keycode (shift_level e.state))] :=
    List.mem_of_mem_take hc
  rw [xkey_text] at hc1
  exact key_line_injectable _ _ (key_tag_injectable _) c hc1

theorem xbutton_line_injectable (e : XEvent) : ∀ c ∈ (xbutton_line e).1, Injectable c := by
  intro c hc
  have hc1 : c ∈ vformat "%c %u %u\r".toList
      [Arg.c (if e.type = ButtonPress then 'b' else 'B'), Arg.u e.state, Arg.u e.button] :=
    List.mem_of_mem_take hc
  rw [xbutton_text] at hc1
  exact button_line_injectable _ _ _ (button_tag_injectable _) c hc1

theorem xmotion_line_injectable (dx dy : Int) :
    ∀ c ∈ (xmotion_line dx dy).1, Injectable c := by
  intro c hc
  have hc1 : c ∈ vformat "m %d %d\r".toList [Arg.d dx, Arg.d dy] := List.mem_of_mem_take hc
  rw [xmotion_text] at hc1
  exact motion_line_injectable dx dy c hc1

/-- A text that snprintf reports as fitting is in the buffer whole. -/
theorem snprintf_fits (size : Nat) (format : List Char) (args : List Arg)
    (h : (vformat format args).length ≤ size - 1) :
    (snprintf size format args).1 = vformat format args := by
  simp [snprintf, List.take_of_length_le h]

/-- A key line that fits is handed to forward_str as formatted. -/
theorem forward_xkey_fits (dpy : Display) (e : XEvent) (target : Window)
    (hlen : (key_line (if e.type = KeyPress then 'k' else 'K')
      (dpy.XkbKeycodeToKeysym e.keycode (shift_level e.state))).length ≤ 15) :
    forward_xkey dpy e target =
      forward_str dpy e
        (key_line (if e.type = KeyPress then 'k' else 'K')
          (dpy.XkbKeycodeToKeysym e.keycode (shift_level e.state))) target := by
  rw [← xkey_text] at hlen ⊢
  have h2 : (xkey_line dpy e).2 = (vformat "%c %lu\r".toList
      [Arg.c (if e.type = KeyPress then 'k' else 'K'),
        Arg.lu (dpy.XkbKeycodeToKeysym e.keycode (shift_level e.state))]).length := rfl
  have h1 : (xkey_line dpy e).1 = vformat "%c %lu\r".toList
      [Arg.c (if e.type = KeyPress then 'k' else 'K'),
        Arg.lu (dpy.XkbKeycodeToKeysym e.keycode (shift_level e.state))] :=
    snprintf_fits 16 _ _ hlen
  have hfit : ¬ (xkey_line dpy e).2 ≥ 16 := by rw [h2]; omega
  rw [forward_xkey, if_neg hfit, h1]

/-- A button line that fits is handed to forward_str as formatted. -/
theorem forward_xbutton_fits (dpy : Display) (e : XEvent) (target : Window)
    (hlen : (button_line (if e.type = ButtonPress then 'b' else 'B')
      e.state e.button).length ≤ 15) :
    forward_xbutton dpy e target =
      forward_str dpy e
        (button_line (if e.type = ButtonPress then 'b' else 'B') e.state e.button) target := by
  rw [← xbutton_text] at hlen ⊢
  have h2 : (xbutton_line e).2 = (vformat "%c %u %u\r".toList
      [Arg.c (if e.type = ButtonPress then 'b' else 'B'), Arg.u e.state,
        Arg.u e.button]).length := rfl
  have h1 : (xbutton_line e).1 = vformat "%c %u %u\r".toList
      [Arg.c (if e.type = ButtonPress then 'b' else 'B'), Arg.u e.state, Arg.u e.button] :=
    snprintf_fits 16 _ _ hlen
  have hfit : ¬ (xbutton_line e).2 ≥ 16 := by rw [h2]; omega
  rw [forward_xbutton, if_neg hfit, h1]

theorem decode_identity_char (c : Char) (h : Injectable c) :
    decode_identity (char_event dpy0 42 {} c) = c := by
  rw [injectable_iff_toNat] at h
  have hk : (char_event dpy0 42 {} c).keycode =
      (if c.toNat < 32 ∨ c.toNat = 127 then 0xff00 + c.toNat else c.toNat) := rfl
  unfold decode_identity
  rw [hk]
  by_cases hc : c.toNat < 32 ∨ c.toNat = 127
  · have h1 : 0xff00 ≤ 0xff00 + c.toNat := Nat.le_add_right _ _
    rw [if_pos hc, if_pos h1, Nat.add_sub_cancel_left, Char.ofNat_toNat]
  · have h1 : ¬ 0xff00 ≤ c.toNat := by omega
    rw [if_neg hc, if_neg h1, Char.ofNat_toNat]

/-! ## Claims on the encoder and the translators -/

/-- C3: for a string s whose characters all lie in the set of the
specification, forward_str sends exactly one synthetic event per character and
nothing else; the i-th event is the KeyPress built from the i-th character
(keycode looked up from the character code, plus 0xff00 for a control
character; state ShiftMask exactly for an uppercase letter), none is a
KeyRelease, and any decoder that maps the event of each single character back
to that character maps the sent events back to s. -/
theorem forward_str_injects_each_char (dpy : Display) (e : XEvent) (s : List Char)
    (target : Window) (h : ∀ c ∈ s, Injectable c) :
    (forward_str dpy e s target).trace =
        s.map (fun c =>
          Effect.XSendEvent target false KeyPressMask (char_event dpy target e c)) ∧
      (sent_events (forward_str dpy e s target).trace).length = s.length ∧
      (∀ ev ∈ sent_events (forward_str dpy e s target).trace,
        ev.type = KeyPress ∧ ev.type ≠ KeyRelease) ∧
      (∀ back : XEvent → Char,
        (∀ c, Injectable c → back (char_event dpy target e c) = c) →
          (sent_events (forward_str dpy e s target).trace).map back = s) := by
  have ht := forward_str_trace dpy target s e h
  have hs : sent_events (forward_str dpy e s target).trace =
      s.map (char_event dpy target e) := by
    rw [ht, sent_events_map]
  refine ⟨ht, ?_, ?_, ?_⟩
  · rw [hs, List.length_map]
  · intro ev hev
    rw [hs, List.mem_map] at hev
    obtain ⟨c, _, rfl⟩ := hev
    exact ⟨rfl, show KeyPress ≠ KeyRelease by decide⟩
  · intro back hback
    rw [hs, List.map_map]
    calc s.map (back ∘ char_event dpy target e)
        = s.map id := List.map_congr_left (fun c hc => hback c (h c hc))
      _ = s := List.map_id s

/-- Witness of C3 on the line of a press of keysym 65: five events, for k,
space, 6, 5 and carriage return, which a receiver for the identity keymap reads
back as the line. -/
theorem forward_str_injects_each_char_witness :
    (∀ c ∈ "k 65\r".data, Injectable c) ∧
      (forward_str dpy0 {} "k 65\r".data 42).trace =
        ['k', ' ', '6', '5', '\r'].map (fun c =>
          Effect.XSendEvent 42 false KeyPressMask (char_event dpy0 42 {} c)) ∧
      (sent_events (forward_str dpy0 {} "k 65\r".data 42).trace).length = 5 ∧
      sent_keycodes (forward_str dpy0 {} "k 65\r".data 42).trace =
        [0x6b, 0x20, 0x36, 0x35, 0xff0d] ∧
      (sent_events (forward_str dpy0 {} "k 65\r".data 42).trace).map decode_identity =
        "k 65\r".data :=
  ⟨by decide,
    (forward_str_injects_each_char dpy0 {} "k 65\r".data 42 (by decide)).1,
    (forward_str_injects_each_char dpy0 {} "k 65\r".data 42 (by decide)).2.1,
    by decide,
    (forward_str_injects_each_char dpy0 {} "k 65\r".data 42 (by decide)).2.2.2
      decode_identity decode_identity_char⟩

/-- C4: forward_str ends the process with the bogus control string error
exactly when the C string s (the characters before the first NUL) holds a
character outside the set of the specification, and it returns normally exactly
when it holds none. -/
theorem forward_str_fatal_iff_bogus (dpy : Display) (e : XEvent) (s : List Char)
    (target : Window) :
    ((forward_str dpy e s target).result = .fatal bogus_control_string ↔
        ∃ c ∈ cstr s, ¬ Injectable c) ∧
      ((∃ e1, (forward_str dpy e s target).result = .done e1) ↔
        ∀ c ∈ cstr s, Injectable c) :=
  forward_str_result dpy target s e

/-- C5: when the line is at most 15 characters long, forward_xkey hands
forward_str the line k, space, decimal keysym, CR for a press and the same with
K for a release, and forward_xbutton hands it b, space, decimal modifier mask,
space, decimal button, CR for a press and the same with B for a release. -/
theorem forward_key_button_lines (dpy : Display) (e : XEvent) (target : Window) :
    (e.type = KeyPress →
        (key_line 'k' (dpy.XkbKeycodeToKeysym e.keycode (shift_level e.state))).length ≤ 15 →
        forward_xkey dpy e target =
          forward_str dpy e
            (key_line 'k' (dpy.XkbKeycodeToKeysym e.keycode (shift_level e.state))) target) ∧
      (e.type = KeyRelease →
        (key_line 'K' (dpy.XkbKeycodeToKeysym e.keycode (shift_level e.state))).length ≤ 15 →
        forward_xkey dpy e target =
          forward_str dpy e
            (key_line 'K' (dpy.XkbKeycodeToKeysym e.keycode (shift_level e.state))) target) ∧
      (e.type = ButtonPress → (button_line 'b' e.state e.button).length ≤ 15 →
        forward_xbutton dpy e target =
          forward_str dpy e (button_line 'b' e.state e.button) target) ∧
      (e.type = ButtonRelease → (button_line 'B' e.state e.button).length ≤ 15 →
        forward_xbutton dpy e target =
          forward_str dpy e (button_line 'B' e.state e.button) target) := by
  refine ⟨?_, ?_, ?_, ?_⟩
  · intro ht hlen
    have h := forward_xkey_fits dpy e target
    rw [if_pos ht] at h
    exact h hlen
  · intro ht hlen
    have hne : ¬ e.type = KeyPress := by rw [ht]; decide
    have h := forward_xkey_fits dpy e target
    rw [if_neg hne] at h
    exact h hlen
  · intro ht hlen
    have h := forward_xbutton_fits dpy e target
    rw [if_pos ht] at h
    exact h hlen
  · intro ht hlen
    have hne : ¬ e.type = ButtonPress := by rw [ht]; decide
    have h := forward_xbutton_fits dpy e target
    rw [if_neg hne] at h
    exact h hlen

/-- Witness of C5: the release of keysym 65 is forwarded as the line K 65 and
the press of button 1 under modifier mask 16 as the line b 16 1. -/
theorem forward_key_button_lines_witness :
    forward_xkey dpy0 (release 65) 42 = forward_str dpy0 (release 65) "K 65\r".data 42 ∧
      forward_xbutton dpy0 { type := ButtonPress, state := 16, button := 1 } 42 =
        forward_str dpy0 { type := ButtonPress, state := 16, button := 1 } "b 16 1\r".data 42 :=
  ⟨(forward_key_button_lines dpy0 (release 65) 42).2.1 rfl (by decide),
    (forward_key_button_lines dpy0 { type := ButtonPress, state := 16, button := 1 } 42).2.2.1
      rfl (by decide)⟩

/-- C10: for every key, button and motion event the buffer that forward_xkey,
forward_xbutton or forward_xmotion fills holds only characters of the set of
the specification, and none of the three translators ends in a fatal error. -/
theorem translators_never_bogus (dpy : Display) (e : XEvent) (target : Window) :
    (∀ c ∈ (xkey_line dpy e).1, Injectable c) ∧
      (∀ c ∈ (xbutton_line e).1, Injectable c) ∧
      (∀ dx dy : Int, ∀ c ∈ (xmotion_line dx dy).1, Injectable c) ∧
      (∀ msg, (forward_xkey dpy e target).result ≠ .fatal msg) ∧
      (∀ msg, (forward_xbutton dpy e target).result ≠ .fatal msg) ∧
      (∀ msg, (forward_xmotion dpy e target).result ≠ .fatal msg) := by
  refine ⟨xkey_line_injectable dpy e, xbutton_line_injectable e, xmotion_line_injectable,
    ?_, ?_, ?_⟩
  · intro msg
    unfold forward_xkey
    split
    · intro h; cases h
    · exact forward_str_never_other dpy target _ e msg (xkey_line_injectable dpy e)
  · intro msg
    unfold forward_xbutton
    split
    · intro h; cases h
    · exact forward_str_never_other dpy target _ e msg (xbutton_line_injectable e)
  · intro msg
    unfold forward_xmotion
    simp only
    split
    · intro h; cases h
    · split
      · intro h; cases h
      · exact forward_str_never_other dpy target _ e msg (xmotion_line_injectable _ _)

/-- Witness of C10: the characters handed over for the largest 64 bit keysym
and for the most negative motion deltas are all in the set. -/
theorem translators_never_bogus_witness :
    Injectable '1' ∧ Injectable '-' :=
  ⟨(translators_never_bogus { dpy0 with XkbKeycodeToKeysym := fun _ _ => 2 ^ 64 - 1 }
      (press 0) 42).1 '1' (by decide),
    (translators_never_bogus dpy0 (press 0) 42).2.2.1 (-2147483648) (-2147483648) '-'
      (by decide)⟩

theorem wrap_int_of_range (i : Int) (h : -2147483648 ≤ i ∧ i ≤ 2147483647) :
    wrap_int i = i := by
  unfold wrap_int
  omega

/-- C2, as the code has it: for a pointer position (x, y) other than the
screen centre (cx, cy), with cx - x and cy - y in the range of int,
forward_xmotion warps the pointer to the centre and then, when the line m, dx,
dy, CR with dx = cx - x and dy = cy - y (the centre minus the current position)
is at most 15 characters long, hands exactly that line to forward_str; when the
line is longer it warns and forwards nothing. -/
theorem forward_xmotion_delta (dpy : Display) (e : XEvent) (target : Window)
    (hne : (e.x_root, e.y_root) ≠
      (Int.tdiv dpy.DisplayWidth 2, Int.tdiv dpy.DisplayHeight 2))
    (hx : -2147483648 ≤ Int.tdiv dpy.DisplayWidth 2 - e.x_root ∧
      Int.tdiv dpy.DisplayWidth 2 - e.x_root ≤ 2147483647)
    (hy : -2147483648 ≤ Int.tdiv dpy.DisplayHeight 2 - e.y_root ∧
      Int.tdiv dpy.DisplayHeight 2 - e.y_root ≤ 2147483647) :
    ((motion_line (Int.tdiv dpy.DisplayWidth 2 - e.x_root)
          (Int.tdiv dpy.DisplayHeight 2 - e.y_root)).length ≤ 15 →
        forward_xmotion dpy e target =
          ⟨warp_center dpy ++
              (forward_str dpy e
                (motion_line (Int.tdiv dpy.DisplayWidth 2 - e.x_root)
                  (Int.tdiv dpy.DisplayHeight 2 - e.y_root)) target).trace,
            (forward_str dpy e
              (motion_line (Int.tdiv dpy.DisplayWidth 2 - e.x_root)
                (Int.tdiv dpy.DisplayHeight 2 - e.y_root)) target).result⟩) ∧
      (15 < (motion_line (Int.tdiv dpy.DisplayWidth 2 - e.x_root)
          (Int.tdiv dpy.DisplayHeight 2 - e.y_root)).length →
        forward_xmotion dpy e target =
          ⟨warp_center dpy ++ [Effect.warnx "xmotion forward did not fit"], .done e⟩) := by
  have hd : delta_from_center dpy e.x_root e.y_root =
      (Int.tdiv dpy.DisplayWidth 2 - e.x_root, Int.tdiv dpy.DisplayHeight 2 - e.y_root) := by
    simp only [delta_from_center, wrap_int_of_range _ hx, wrap_int_of_range _ hy]
  have hz : ¬ ((Int.tdiv dpy.DisplayWidth 2 - e.x_root) = 0 ∧
      (Int.tdiv dpy.DisplayHeight 2 - e.y_root) = 0) := by
    intro h
    apply hne
    rw [Prod.mk.injEq]
    omega
  have h2 : (xmotion_line (Int.tdiv dpy.DisplayWidth 2 - e.x_root)
      (Int.tdiv dpy.DisplayHeight 2 - e.y_root)).2 =
      (motion_line (Int.tdiv dpy.DisplayWidth 2 - e.x_root)
        (Int.tdiv dpy.DisplayHeight 2 - e.y_root)).length := by
    rw [← xmotion_text]; rfl
  constructor
  · intro hfit
    have h1 : (xmotion_line (Int.tdiv dpy.DisplayWidth 2 - e.x_root)
        (Int.tdiv dpy.DisplayHeight 2 - e.y_root)).1 =
        motion_line (Int.tdiv dpy.DisplayWidth 2 - e.x_root)
          (Int.tdiv dpy.DisplayHeight 2 - e.y_root) := by
      rw [← xmotion_text] at hfit ⊢
      exact snprintf_fits 16 _ _ hfit
    have hfit2 : ¬ (xmotion_line (Int.tdiv dpy.DisplayWidth 2 - e.x_root)
        (Int.tdiv dpy.DisplayHeight 2 - e.y_root)).2 ≥ 16 := by rw [h2]; omega
    unfold forward_xmotion
    simp only [hd, if_neg hz, if_neg hfit2, h1]
  · intro hlong
    have hlong2 : (xmotion_line (Int.tdiv dpy.DisplayWidth 2 - e.x_root)
        (Int.tdiv dpy.DisplayHeight 2 - e.y_root)).2 ≥ 16 := by rw [h2]; omega
    unfold forward_xmotion
    simp only [hd, if_neg hz, if_pos hlong2]

/-- Witness of the amended C2: on the 1920x1080 display a pointer 3 pixels left
of and 7 pixels below the centre (960, 540) is forwarded as the line m 3 -7;
on a 32767x32767 display the pointer at (30000, 30000) has a line of 16
characters and nothing is forwarded. -/
theorem forward_xmotion_delta_witness :
    forward_xmotion dpy0 (motion 957 547) 42 =
        ⟨warp_center dpy0 ++ (forward_str dpy0 (motion 957 547) "m 3 -7\r".data 42).trace,
          (forward_str dpy0 (motion 957 547) "m 3 -7\r".data 42).result⟩ ∧
      forward_xmotion dpy_huge (motion 30000 30000) 42 =
        ⟨warp_center dpy_huge ++ [Effect.warnx "xmotion forward did not fit"],
          .done (motion 30000 30000)⟩ :=
  ⟨(forward_xmotion_delta dpy0 (motion 957 547) 42 (by decide) (by decide) (by decide)).1
      (by decide),
    (forward_xmotion_delta dpy_huge (motion 30000 30000) 42 (by decide) (by decide)
      (by decide)).2 (by decide)⟩

/-- C2 as stated fails: the pointer 3 pixels left of and 7 pixels below the
centre is not forwarded as the line for (x - cx, y - cy) = (-3, 7) but as the
line for (3, -7); and a position whose line does not fit in 15 characters is
not forwarded at all. -/
theorem forward_xmotion_delta_counterexample :
    ((957 : Int) - Int.tdiv dpy0.DisplayWidth 2 = -3 ∧
        (547 : Int) - Int.tdiv dpy0.DisplayHeight 2 = 7) ∧
      motion_line (-3) 7 = "m -3 7\r".data ∧
      sent_keycodes (forward_xmotion dpy0 (motion 957 547) 42).trace ≠
        sent_keycodes (forward_str dpy0 (motion 957 547) (motion_line (-3) 7) 42).trace ∧
      sent_keycodes (forward_xmotion dpy0 (motion 957 547) 42).trace =
        keysyms_of "m 3 -7\r" ∧
      forward_xmotion dpy_huge (motion 30000 30000) 42 =
        ⟨[Effect.XWarpPointer 16383 16383, Effect.warnx "xmotion forward did not fit"],
          .done (motion 30000 30000)⟩ := by
  decide

theorem layout_line_injectable (name : List Char) (h : ∀ c ∈ name, Injectable c) :
    ∀ c ∈ layout_line name, Injectable c := by
  intro c hc
  simp only [layout_line, List.mem_append, List.mem_cons, List.mem_singleton,
    List.not_mem_nil, or_false] at hc
  rcases hc with ((rfl | rfl) | hc) | rfl
  · decide
  · decide
  · exact h c hc
  · decide

/-- The run of forward_mapping when the layout string is accepted and fits. -/
theorem forward_mapping_of_layout (dpy : Display) (target : Window)
    (hinj : ∀ c ∈ mapping_layout dpy, Injectable c)
    (hlen : (mapping_layout dpy).length ≤ 28) :
    forward_mapping dpy target =
      ⟨(if names_failed dpy.XkbRF_GetNamesProp then [Effect.warnx "couldn't interpret"]
          else []) ++
          (layout_line (mapping_layout dpy)).map (fun c =>
            Effect.XSendEvent target false KeyPressMask (char_event dpy target {} c)),
        .done ()⟩ := by
  have htext : vformat "l %s\r".toList [Arg.s (mapping_layout dpy)] =
      layout_line (mapping_layout dpy) := by
    rw [mapping_text, cstr_of_injectable _ hinj]
  have hl : (layout_line (mapping_layout dpy)).length = (mapping_layout dpy).length + 3 := by
    simp [layout_line]
  have h2 : (mapping_line dpy).2 = (layout_line (mapping_layout dpy)).length := by
    rw [← htext]; rfl
  have h1 : (mapping_line dpy).1 = layout_line (mapping_layout dpy) := by
    rw [← htext]
    exact snprintf_fits 32 _ _ (by rw [htext, hl]; omega)
  have hfit : ¬ (mapping_line dpy).2 ≥ 32 := by rw [h2, hl]; omega
  have hi := layout_line_injectable _ hinj
  unfold forward_mapping
  simp only [if_neg hfit, h1, forward_str_trace dpy target _ {} hi,
    forward_str_done dpy target _ {} hi]

/-- C8, as the code has it: when the layout query succeeds with a name n made
of characters of the set of the specification and at most 28 characters long,
forward_mapping forwards the line l, space, n, CR and returns; when the query
fails it warns, forwards the line for the default name us and returns. -/
theorem forward_mapping_layout (dpy : Display) (target : Window) :
    (names_failed dpy.XkbRF_GetNamesProp = false →
        (∀ c ∈ dpy.XkbRF_GetNamesProp.layout, Injectable c) →
        dpy.XkbRF_GetNamesProp.layout.length ≤ 28 →
        forward_mapping dpy target =
          ⟨(layout_line dpy.XkbRF_GetNamesProp.layout).map (fun c =>
              Effect.XSendEvent target false KeyPressMask (char_event dpy target {} c)),
            .done ()⟩) ∧
      (names_failed dpy.XkbRF_GetNamesProp = true →
        forward_mapping dpy target =
          ⟨Effect.warnx "couldn't interpret" ::
              "l us\r".data.map (fun c =>
                Effect.XSendEvent target false KeyPressMask (char_event dpy target {} c)),
            .done ()⟩) := by
  constructor
  · intro hok hinj hlen
    have hm : mapping_layout dpy = dpy.XkbRF_GetNamesProp.layout := by
      simp [mapping_layout, hok]
    rw [forward_mapping_of_layout dpy target (by rw [hm]; exact hinj) (by rw [hm]; exact hlen),
      hm]
    simp [hok]
  · intro hfail
    have hm : mapping_layout dpy = DFLT_XKB_LAYOUT := by
      simp [mapping_layout, hfail]
    rw [forward_mapping_of_layout dpy target (by rw [hm]; decide) (by rw [hm]; decide), hm]
    simp [hfail]
    rfl

/-- Witness of the amended C8: the name us of a successful query, and a failing
query, are both forwarded as the line l us. -/
theorem forward_mapping_layout_witness :
    sent_keycodes (forward_mapping dpy0 42).trace = keysyms_of "l us\r" ∧
      (forward_mapping dpy0 42).result = .done () ∧
      sent_keycodes (forward_mapping dpy_no_names 42).trace = keysyms_of "l us\r" ∧
      (forward_mapping dpy_no_names 42).result = .done () := by
  have h1 := (forward_mapping_layout dpy0 42).1 (by decide) (by decide) (by decide)
  have h2 := (forward_mapping_layout dpy_no_names 42).2 (by decide)
  rw [h1, h2]
  decide

/-- C8 as stated fails: the name us,ru of a successful query makes
forward_mapping end the process with the bogus control string error after it
has injected the four characters before the comma; and a name of 29 letters is
not forwarded at all. -/
theorem forward_mapping_layout_counterexample :
    names_failed dpy_two_layouts.XkbRF_GetNamesProp = false ∧
      (forward_mapping dpy_two_layouts 42).result = .fatal bogus_control_string ∧
      sent_keycodes (forward_mapping dpy_two_layouts 42).trace = keysyms_of "l us" ∧
      names_failed dpy_long_layout.XkbRF_GetNamesProp = false ∧
      forward_mapping dpy_long_layout 42 =
        ⟨[Effect.warnx "layout forward did not fit"], .done ()⟩ := by
  decide

/-! ## Claims on the grab engine and the main loop -/

theorem bind_trace_extends {α β : Type} (r : Run α) (f : α → Run β) :
    ∃ rest, (r.bind f).trace = r.trace ++ rest := by
  unfold Run.bind
  cases r.result with
  | done a => exact ⟨(f a).trace, rfl⟩
  | fatal msg => exact ⟨[], by simp⟩
  | blocked => exact ⟨[], by simp⟩

theorem change_target_trace (dpy : Display) (selwin : Window) (crosshair : Nat)
    (q : List XEvent) :
    ∃ rest, (change_target dpy selwin crosshair q).trace = Effect.XMapRaised selwin :: rest := by
  obtain ⟨rest, h⟩ := bind_trace_extends
    (emit [Effect.XMapRaised selwin, Effect.XDrawString selwin select_prompt, Effect.XSync])
    (fun _ => (get_window_at_cursor dpy crosshair q).bind fun r =>
      (emit [Effect.XUnmapWindow selwin]).bind fun _ => pure r)
  exact ⟨_, h⟩

theorem scan_breaks_not_mem (keysym : KeySym) (type : Nat) (breaks : List KeySym)
    (h : keysym ∉ breaks) : ∀ acc : Bool × Bool,
    breaks.foldl
      (fun acc b =>
        if keysym ≠ b then acc
        else (true, if type = KeyRelease then false else acc.2)) acc = acc := by
  induction breaks with
  | nil => intro acc; rfl
  | cons b bs ih =>
    intro acc
    have hb : keysym ≠ b := fun hb => h (hb ▸ List.mem_cons_self _ _)
    have hbs : keysym ∉ bs := fun hm => h (List.mem_cons_of_mem _ hm)
    rw [List.foldl_cons, if_pos hb]
    exact ih hbs acc

/-- Whenever grab forwards the release of a key that is not a break key (the
counter is positive and the line fits), the counter npress keeps its value: the
test of e.type after forward_xkey reads the KeyPress that forward_str stored
there. -/
theorem grab_forwarded_release_keeps_npress (dpy : Display) (target : Window)
    (breaks : List KeySym) (st : GrabState) (e : XEvent)
    (hrel : e.type = KeyRelease)
    (hnb : dpy.XkbKeycodeToKeysym e.keycode (shift_level e.state) ∉ breaks)
    (hn : st.npress > 0)
    (hfit : (key_line 'K' (dpy.XkbKeycodeToKeysym e.keycode (shift_level e.state))).length
      ≤ 15) :
    grab_step dpy target breaks st e =
      ⟨(key_line 'K' (dpy.XkbKeycodeToKeysym e.keycode (shift_level e.state))).map (fun c =>
          Effect.XSendEvent target false KeyPressMask (char_event dpy target e c)),
        .done { grabbed := st.grabbed, npress := st.npress,
                keysym := dpy.XkbKeycodeToKeysym e.keycode (shift_level e.state) }⟩ := by
  have hne : ¬ e.type = KeyPress := by rw [hrel]; decide
  have hi := key_line_injectable 'K'
    (dpy.XkbKeycodeToKeysym e.keycode (shift_level e.state)) (by decide)
  have hx := forward_xkey_fits dpy e target
  rw [if_neg hne] at hx
  have hx := hx hfit
  have hscan : scan_breaks (dpy.XkbKeycodeToKeysym e.keycode (shift_level e.state)) e.type
      breaks st.grabbed = (false, st.grabbed) :=
    scan_breaks_not_mem _ _ breaks hnb _
  have hlast : ∃ c, (key_line 'K'
      (dpy.XkbKeycodeToKeysym e.keycode (shift_level e.state))).getLast? = some c := by
    refine ⟨'\r', ?_⟩
    rw [key_line, List.getLast?_append_of_ne_nil _ (by simp)]
    rfl
  obtain ⟨c, hc⟩ := hlast
  have hres := forward_str_done dpy target _ e hi
  rw [hc] at hres
  have htr := forward_str_trace dpy target _ e hi
  have hkp : ¬ (KeyPress = KeyRelease) := by decide
  rw [grab_step, if_neg hne, if_pos hrel, grab_key]
  simp only [hscan, Bool.false_eq_true, if_false, hne, false_or, hn, if_true, hx, hres, htr,
    char_event, hkp]

/-- C9 fails on the code: with npress = 1 the release of the key a (keysym 97)
is forwarded as the line K 97, yet npress is still 1 afterwards, not 0. -/
theorem grab_release_npress_example :
    grab_step dpy0 42 [XK_Super_R, XK_Menu]
        { grabbed := true, npress := 1, keysym := 97 } (release 97) =
      ⟨(forward_str dpy0 (release 97) "K 97\r".data 42).trace,
        .done { grabbed := true, npress := 1, keysym := 97 }⟩ ∧
      sent_keycodes (forward_str dpy0 (release 97) "K 97\r".data 42).trace =
        keysyms_of "K 97\r" := by
  decide

/-- C1 fails on the code: in one episode the events press a, release a,
release b (b held down since before the episode) are forwarded as one press and
two releases; and the press of the break key Super_R followed by the release of
a is forwarded as no press and one release. -/
theorem grab_release_balance_example :
    sent_keycodes
        (grab dpy0 3 42 [XK_Super_R, XK_Menu] [press 97, release 97, release 98]).trace =
        keysyms_of "k 97\rK 97\rK 98\r" ∧
      forwarded_presses
        (grab dpy0 3 42 [XK_Super_R, XK_Menu] [press 97, release 97, release 98]).trace = 1 ∧
      forwarded_releases
        (grab dpy0 3 42 [XK_Super_R, XK_Menu] [press 97, release 97, release 98]).trace = 2 ∧
      sent_keycodes
        (grab dpy0 3 42 [XK_Super_R, XK_Menu] [press XK_Super_R, release 97]).trace =
        keysyms_of "K 97\r" ∧
      forwarded_presses
        (grab dpy0 3 42 [XK_Super_R, XK_Menu] [press XK_Super_R, release 97]).trace = 0 ∧
      forwarded_releases
        (grab dpy0 3 42 [XK_Super_R, XK_Menu] [press XK_Super_R, release 97]).trace = 1 := by
  decide

/-- C6, as the code has it: from Idle (keysym is not the change-target key, so
wait_key runs) the release of the change-target key runs change_target for
every Target, None included; the release of the toggle-forward key runs no
selection and leaves Target as it is, after which the loop stays Idle when
Target is None and starts forwarding to Target otherwise. -/
theorem idle_hotkey_release (dpy : Display) (cfg : Config) (st : MainState) (e : XEvent)
    (q : List XEvent) (hidle : st.keysym ≠ cfg.change_target_key)
    (hrel : e.type = KeyRelease) :
    (dpy.XkbKeycodeToKeysym e.keycode (shift_level e.state) = cfg.change_target_key →
        main_select dpy cfg st (e :: q) =
          ((change_target dpy cfg.selwin cfg.crosshair q).bind fun r =>
            pure ({ keysym := cfg.change_target_key, target := r.1 }, r.2)) ∧
        ∃ rest, (main_iter dpy cfg st (e :: q)).trace =
          Effect.XMapRaised cfg.selwin :: rest) ∧
      (dpy.XkbKeycodeToKeysym e.keycode (shift_level e.state) = cfg.toggle_forward_key →
        cfg.toggle_forward_key ≠ cfg.change_target_key →
        main_select dpy cfg st (e :: q) =
          pure ({ keysym := cfg.toggle_forward_key, target := st.target }, q) ∧
        main_iter dpy cfg st (e :: q) =
          if st.target = None then pure ({ keysym := None, target := None }, q)
          else main_forward dpy cfg
            { keysym := cfg.toggle_forward_key, target := st.target } q) := by
  have hw : wait_key dpy (e :: q) =
      pure (dpy.XkbKeycodeToKeysym e.keycode (shift_level e.state), q) := by
    rw [wait_key, if_pos hrel]
  constructor
  · intro hk
    have hsel : main_select dpy cfg st (e :: q) =
        ((change_target dpy cfg.selwin cfg.crosshair q).bind fun r =>
          pure ({ keysym := cfg.change_target_key, target := r.1 }, r.2)) := by
      rw [main_select, if_neg hidle, hw]
      simp [Run.bind, pure, hk]
    refine ⟨hsel, ?_⟩
    obtain ⟨r1, h1⟩ := bind_trace_extends (main_select dpy cfg st (e :: q))
      (fun s => if s.1.target = None then pure ({ s.1 with keysym := None }, s.2)
        else main_forward dpy cfg s.1 s.2)
    obtain ⟨r2, h2⟩ := bind_trace_extends (change_target dpy cfg.selwin cfg.crosshair q)
      (fun r => (pure ({ keysym := cfg.change_target_key, target := r.1 }, r.2) :
        Run (MainState × List XEvent)))
    obtain ⟨r3, h3⟩ := change_target_trace dpy cfg.selwin cfg.crosshair q
    refine ⟨r3 ++ r2 ++ r1, ?_⟩
    rw [main_iter, h1, hsel, h2, h3]
    simp
  · intro hk hne
    have hsel : main_select dpy cfg st (e :: q) =
        pure ({ keysym := cfg.toggle_forward_key, target := st.target }, q) := by
      rw [main_select, if_neg hidle, hw]
      simp [Run.bind, pure, hk, hne]
    refine ⟨hsel, ?_⟩
    rw [main_iter, hsel]
    by_cases ht : st.target = None
    · simp [Run.bind, pure, ht]
    · simp [Run.bind, pure, ht]

/-- Witness of the amended C6 with the keys Menu and Super_R: from Idle with
target 5, the release of Menu opens the selection window, and the release of
Super_R starts forwarding to 5 without any selection. -/
theorem idle_hotkey_release_witness :
    (∃ rest, (main_iter dpy0 cfg0 { keysym := None, target := 5 }
        [release XK_Menu]).trace = Effect.XMapRaised cfg0.selwin :: rest) ∧
      main_iter dpy0 cfg0 { keysym := None, target := 5 } [release XK_Super_R] =
        main_forward dpy0 cfg0 { keysym := XK_Super_R, target := 5 } [] :=
  ⟨((idle_hotkey_release dpy0 cfg0 { keysym := None, target := 5 } (release XK_Menu) []
      (by decide) rfl).1 rfl).2,
    ((idle_hotkey_release dpy0 cfg0 { keysym := None, target := 5 } (release XK_Super_R) []
      (by decide) rfl).2 rfl (by decide)).2⟩

/-- C6 as stated fails for the toggle-forward key: from Idle its release runs
no selection.  With Target None the iteration has no effect at all and the loop
is Idle again; with Target 5 no selection window is mapped and the keyboard is
grabbed for forwarding to 5. -/
theorem idle_hotkey_release_counterexample :
    main_iter dpy0 cfg0 { keysym := None, target := None } [release XK_Super_R] =
        ⟨[], .done ({ keysym := None, target := None }, [])⟩ ∧
      Effect.XMapRaised cfg0.selwin ∉
        (main_iter dpy0 cfg0 { keysym := None, target := 5 } [release XK_Super_R]).trace ∧
      Effect.XGrabKeyboard ∈
        (main_iter dpy0 cfg0 { keysym := None, target := 5 } [release XK_Super_R]).trace := by
  decide

/-! ## The selection never returns None

The scenario of C7 needs a selection that returns None.  The loop of
get_window_at_cursor is left only with a window that is not None, and
XmuClientWindow answers with its argument or one of its descendants, so for
every display that keeps this contract change_target returns a window that is
not None whenever it returns. -/

theorem bind_result_done {α β : Type} (r : Run α) (f : α → Run β) (b : β)
    (h : (r.bind f).result = .done b) :
    ∃ a, r.result = .done a ∧ (f a).result = .done b := by
  unfold Run.bind at h
  cases hr : r.result with
  | done a => rw [hr] at h; exact ⟨a, rfl, h⟩
  | fatal msg => rw [hr] at h; cases h
  | blocked => rw [hr] at h; cases h

theorem get_window_loop_ne_none (dpy : Display) :
    ∀ (fuel : Nat) (retwin : Window) (q : List XEvent) (w : Window) (q1 : List XEvent),
      (get_window_loop dpy fuel retwin q).result = .done (w, q1) → w ≠ None := by
  intro fuel
  induction fuel with
  | zero => intro retwin q w q1 h; cases h
  | succ n ih =>
    intro retwin q w q1 h
    unfold get_window_loop at h
    by_cases hr : retwin = None
    · rw [if_pos hr] at h
      cases hx : XWindowEvent dpy.RootWindow q with
      | none => rw [hx] at h; cases h
      | some r =>
        rw [hx] at h
        obtain ⟨_, _, h2⟩ := bind_result_done _ _ _ h
        exact ih _ _ _ _ h2
    · rw [if_neg hr] at h
      cases h
      exact hr

theorem get_window_at_cursor_ne_none (dpy : Display) (crosshair : Nat) (q : List XEvent)
    (hxmu : ∀ w, w ≠ None → dpy.XmuClientWindow w ≠ None) (w : Window) (q1 : List XEvent)
    (h : (get_window_at_cursor dpy crosshair q).result = .done (w, q1)) : w ≠ None := by
  unfold get_window_at_cursor at h
  by_cases hg : dpy.XGrabPointer ≠ GrabSuccess
  · rw [if_pos hg] at h; cases h
  · rw [if_neg hg] at h
    obtain ⟨_, _, h1⟩ := bind_result_done _ _ _ h
    obtain ⟨r, hr, h2⟩ := bind_result_done _ _ _ h1
    obtain ⟨_, _, h3⟩ := bind_result_done _ _ _ h2
    cases h3
    exact hxmu r.1 (get_window_loop_ne_none dpy _ _ _ r.1 r.2 hr)

/-- On a display whose XmuClientWindow never answers None for a window that is
not None, change_target never returns None. -/
theorem change_target_never_none (dpy : Display) (selwin : Window) (crosshair : Nat)
    (q : List XEvent) (hxmu : ∀ w, w ≠ None → dpy.XmuClientWindow w ≠ None)
    (w : Window) (q1 : List XEvent)
    (h : (change_target dpy selwin crosshair q).result = .done (w, q1)) : w ≠ None := by
  unfold change_target at h
  obtain ⟨_, _, h1⟩ := bind_result_done _ _ _ h
  obtain ⟨r, hr, h2⟩ := bind_result_done _ _ _ h1
  obtain ⟨_, _, h3⟩ := bind_result_done _ _ _ h2
  cases h3
  exact get_window_at_cursor_ne_none dpy crosshair q hxmu _ _ hr

/-- When the loop comes back from forwarding with the change-target key, the
window that the selection returns becomes Target whatever Target was. -/
theorem retarget_replaces_target (dpy : Display) (cfg : Config) (st : MainState)
    (q : List XEvent) (hk : st.keysym = cfg.change_target_key) :
    main_select dpy cfg st q =
      ((change_target dpy cfg.selwin cfg.crosshair q).bind fun r =>
        pure ({ keysym := cfg.change_target_key, target := r.1 }, r.2)) := by
  rw [main_select, if_pos hk, ← hk]

end Xout
